import Mathlib

/-!
Verification of the OAuth app marketplace repository against its
natural-language specification.

The development shallowly embeds the relevant program fragments:

* `calculateReviewStats` from `src/client/OAuthAppReviews.tsx` (lines
  222-252) and the identical aggregation in `src/unnamed/part_000`
  (lines 98-111).  JavaScript numbers are modelled as `ℚ` where division
  occurs and as `ℤ` for the integer `rating` column.
* the Express route handlers from `src/server/oauthAppRoutes.ts`
  (app creation, top-rated marketplace listing).
* the marketplace search filter and the `AppCard` star placeholder from
  `src/unnamed/part_000`.
* the review-submission validator and the credential issuer, which are
  described by the specification but whose server-side code is absent
  from the sources (only their HTTP callers appear); these are modelled
  from the specification's words and marked as such.
-/

namespace OAuthMarketplace

/-- An app review record as queried by the reviews component: identity,
author, integer star rating and optional free text
(`src/client/OAuthAppReviews.tsx`, `AppReview` usage). -/
structure AppReview where
  id : Nat
  userId : Nat
  rating : Int
  reviewText : Option String
  deriving DecidableEq, Repr

/-- The record returned by `calculateReviewStats`
(`src/client/OAuthAppReviews.tsx` lines 224-251).  It has exactly four
fields; in particular there is no field counting skipped entries. -/
structure ReviewStats where
  averageRating : ℚ
  totalReviews : Nat
  ratingCounts : List Nat
  percentages : List ℚ
  deriving DecidableEq, Repr

/-- One step of the `reviews.forEach` loop at lines 237-241: the guard
`review.rating > 0 && review.rating <= 5` and the increment
`ratingCounts[5 - review.rating]++`. -/
def bumpRatingCounts (counts : List Nat) (r : Int) : List Nat :=
  if 0 < r ∧ r ≤ 5 then
    counts.set (5 - r).toNat (counts.getD (5 - r).toNat 0 + 1)
  else counts

/-- The `ratingCounts` array built by the `forEach` loop, starting from
`[0, 0, 0, 0, 0]` (buckets for 5, 4, 3, 2, 1 stars). -/
def ratingCountsOf (reviews : List AppReview) : List Nat :=
  reviews.foldl (fun counts review => bumpRatingCounts counts review.rating) [0, 0, 0, 0, 0]

/-- `calculateReviewStats` from `src/client/OAuthAppReviews.tsx` lines
222-252 (the component in `src/unnamed/part_000` lines 98-111 computes
the same `averageRating` and `ratingCounts`).  The empty-list branch
mirrors `if (!reviews?.length)`. -/
def calculateReviewStats (reviews : List AppReview) : ReviewStats :=
  if reviews.length = 0 then
    { averageRating := 0
      totalReviews := 0
      ratingCounts := [0, 0, 0, 0, 0]
      percentages := [0, 0, 0, 0, 0] }
  else
    let totalReviews := reviews.length
    let averageRating : ℚ :=
      (((reviews.map (fun review => review.rating)).sum : ℤ) : ℚ) / (totalReviews : ℚ)
    let ratingCounts := ratingCountsOf reviews
    let percentages := ratingCounts.map (fun count : ℕ => (count : ℚ) / (totalReviews : ℚ) * 100)
    { averageRating := averageRating
      totalReviews := totalReviews
      ratingCounts := ratingCounts
      percentages := percentages }

/-- Number of reviews in `reviews` whose rating equals `k`. -/
def countRating (k : Int) (reviews : List AppReview) : Nat :=
  reviews.countP (fun review => review.rating == k)

lemma countRating_nil (k : Int) : countRating k [] = 0 := rfl

lemma countRating_cons (k : Int) (r : AppReview) (l : List AppReview) :
    countRating k (r :: l) = countRating k l + (if r.rating = k then 1 else 0) := by
  simp [countRating, List.countP_cons]

lemma bumpRatingCounts_one (a b c d e : Nat) :
    bumpRatingCounts [a, b, c, d, e] 1 = [a, b, c, d, e + 1] := rfl

lemma bumpRatingCounts_two (a b c d e : Nat) :
    bumpRatingCounts [a, b, c, d, e] 2 = [a, b, c, d + 1, e] := rfl

lemma bumpRatingCounts_three (a b c d e : Nat) :
    bumpRatingCounts [a, b, c, d, e] 3 = [a, b, c + 1, d, e] := rfl

lemma bumpRatingCounts_four (a b c d e : Nat) :
    bumpRatingCounts [a, b, c, d, e] 4 = [a, b + 1, c, d, e] := rfl

lemma bumpRatingCounts_five (a b c d e : Nat) :
    bumpRatingCounts [a, b, c, d, e] 5 = [a + 1, b, c, d, e] := rfl

/-- Characterisation of the `forEach` counting loop: starting from an
arbitrary five-bucket accumulator it adds, per bucket, the number of
reviews with the corresponding star rating; out-of-range ratings touch
no bucket. -/
lemma foldl_bumpRatingCounts (l : List AppReview) :
    ∀ a b c d e : Nat,
      l.foldl (fun counts review => bumpRatingCounts counts review.rating) [a, b, c, d, e] =
        [a + countRating 5 l, b + countRating 4 l, c + countRating 3 l,
          d + countRating 2 l, e + countRating 1 l] := by
  induction l with
  | nil => intro a b c d e; simp [countRating]
  | cons r l ih =>
    intro a b c d e
    rw [List.foldl_cons]
    by_cases h : 0 < r.rating ∧ r.rating ≤ 5
    · have hx : r.rating = 1 ∨ r.rating = 2 ∨ r.rating = 3 ∨ r.rating = 4 ∨ r.rating = 5 := by
        omega
      rcases hx with hx | hx | hx | hx | hx <;>
        rw [hx] <;>
        simp only [bumpRatingCounts_one, bumpRatingCounts_two, bumpRatingCounts_three,
          bumpRatingCounts_four, bumpRatingCounts_five, ih, countRating_cons, hx] <;>
        norm_num <;> omega
    · have hb : bumpRatingCounts [a, b, c, d, e] r.rating = [a, b, c, d, e] := by
        simp [bumpRatingCounts, h]
      rw [hb, ih]
      push_neg at h
      simp only [countRating_cons]
      have h5 : r.rating ≠ 5 := by omega
      have h4 : r.rating ≠ 4 := by omega
      have h3 : r.rating ≠ 3 := by omega
      have h2 : r.rating ≠ 2 := by omega
      have h1 : r.rating ≠ 1 := by omega
      simp [h1, h2, h3, h4, h5]

/-- The counting loop produces exactly the per-star counts, ordered
5★ down to 1★. -/
lemma ratingCountsOf_eq (l : List AppReview) :
    ratingCountsOf l =
      [countRating 5 l, countRating 4 l, countRating 3 l,
        countRating 2 l, countRating 1 l] := by
  simpa using foldl_bumpRatingCounts l 0 0 0 0 0

/-- Number of reviews whose rating lies in the integer range `[1,5]`. -/
def inRangeCount (l : List AppReview) : Nat :=
  l.countP (fun r => decide (1 ≤ r.rating ∧ r.rating ≤ 5))

lemma inRangeCount_cons (r : AppReview) (l : List AppReview) :
    inRangeCount (r :: l) =
      inRangeCount l + (if 1 ≤ r.rating ∧ r.rating ≤ 5 then 1 else 0) := by
  simp only [inRangeCount, List.countP_cons, decide_eq_true_eq]

/-- The five per-star counts sum to the number of reviews whose rating
lies in `[1,5]`. -/
lemma countRating_sum (l : List AppReview) :
    countRating 5 l + countRating 4 l + countRating 3 l +
        countRating 2 l + countRating 1 l = inRangeCount l := by
  induction l with
  | nil => simp [countRating, inRangeCount]
  | cons r l ih =>
    simp only [countRating_cons, inRangeCount_cons]
    by_cases h : 1 ≤ r.rating ∧ r.rating ≤ 5
    · have hx : r.rating = 1 ∨ r.rating = 2 ∨ r.rating = 3 ∨ r.rating = 4 ∨ r.rating = 5 := by
        omega
      rcases hx with hx | hx | hx | hx | hx <;> simp [hx, h] <;> omega
    · have h5 : r.rating ≠ 5 := by omega
      have h4 : r.rating ≠ 4 := by omega
      have h3 : r.rating ≠ 3 := by omega
      have h2 : r.rating ≠ 2 := by omega
      have h1 : r.rating ≠ 1 := by omega
      simp [h1, h2, h3, h4, h5, h, ih]

lemma calculateReviewStats_totalReviews (reviews : List AppReview) (h : reviews ≠ []) :
    (calculateReviewStats reviews).totalReviews = reviews.length := by
  rw [calculateReviewStats, if_neg (by simpa using h)]

lemma calculateReviewStats_averageRating (reviews : List AppReview) (h : reviews ≠ []) :
    (calculateReviewStats reviews).averageRating =
      (((reviews.map (fun review => review.rating)).sum : ℤ) : ℚ) / (reviews.length : ℚ) := by
  rw [calculateReviewStats, if_neg (by simpa using h)]

lemma calculateReviewStats_ratingCounts (reviews : List AppReview) (h : reviews ≠ []) :
    (calculateReviewStats reviews).ratingCounts = ratingCountsOf reviews := by
  rw [calculateReviewStats, if_neg (by simpa using h)]

lemma calculateReviewStats_percentages (reviews : List AppReview) (h : reviews ≠ []) :
    (calculateReviewStats reviews).percentages =
      (ratingCountsOf reviews).map
        (fun count : ℕ => (count : ℚ) / (reviews.length : ℚ) * 100) := by
  rw [calculateReviewStats, if_neg (by simpa using h)]

/-- C6: Summarizing an empty review list returns exactly average `0`
(the `ℚ` model of the deliberate `0`-not-`NaN` branch), total `0`,
histogram `[0,0,0,0,0]`, and percentages `[0,0,0,0,0]`
(`src/client/OAuthAppReviews.tsx` lines 223-230). -/
theorem claim_c6_empty_summary :
    calculateReviewStats [] =
      { averageRating := 0
        totalReviews := 0
        ratingCounts := [0, 0, 0, 0, 0]
        percentages := [0, 0, 0, 0, 0] } := rfl

/-- C2: for a non-empty review list whose ratings are all integers in
`[1,5]`, the histogram buckets sum to the returned total, which equals
the input length; bucket `i` counts the entries rated `5 - i`; each
percentage is the bucket count over the total times `100`; and the five
percentages sum to exactly `100` in `ℚ` (the exact-arithmetic analogue
of "within floating rounding of 100.0"). -/
theorem claim_c2_stats_invariants (reviews : List AppReview)
    (hne : reviews ≠ [])
    (hall : ∀ r ∈ reviews, 1 ≤ r.rating ∧ r.rating ≤ 5) :
    (calculateReviewStats reviews).ratingCounts.sum =
        (calculateReviewStats reviews).totalReviews
    ∧ (calculateReviewStats reviews).totalReviews = reviews.length
    ∧ (calculateReviewStats reviews).ratingCounts =
        [countRating 5 reviews, countRating 4 reviews, countRating 3 reviews,
          countRating 2 reviews, countRating 1 reviews]
    ∧ (calculateReviewStats reviews).percentages =
        (calculateReviewStats reviews).ratingCounts.map
          (fun count : ℕ =>
            (count : ℚ) / ((calculateReviewStats reviews).totalReviews : ℚ) * 100)
    ∧ (calculateReviewStats reviews).percentages.sum = 100 := by
  have hlen : reviews.length ≠ 0 := by simpa using hne
  have hinr : inRangeCount reviews = reviews.length := by
    rw [inRangeCount, List.countP_eq_length]
    intro r hr
    simpa using hall r hr
  have hcounts :
      (calculateReviewStats reviews).ratingCounts =
        [countRating 5 reviews, countRating 4 reviews, countRating 3 reviews,
          countRating 2 reviews, countRating 1 reviews] := by
    rw [calculateReviewStats_ratingCounts reviews hne, ratingCountsOf_eq]
  have htot := calculateReviewStats_totalReviews reviews hne
  have hsumn :
      countRating 5 reviews + countRating 4 reviews + countRating 3 reviews +
          countRating 2 reviews + countRating 1 reviews = reviews.length := by
    rw [countRating_sum, hinr]
  refine ⟨?_, htot, hcounts, ?_, ?_⟩
  · rw [hcounts, htot]
    simp only [List.sum_cons, List.sum_nil, add_zero]
    omega
  · rw [calculateReviewStats_percentages reviews hne,
      calculateReviewStats_ratingCounts reviews hne, htot]
  · rw [calculateReviewStats_percentages reviews hne, ratingCountsOf_eq]
    simp only [List.map_cons, List.map_nil, List.sum_cons, List.sum_nil, add_zero]
    have hq :
        ((countRating 5 reviews : ℚ) + (countRating 4 reviews : ℚ) +
            (countRating 3 reviews : ℚ) + (countRating 2 reviews : ℚ) +
            (countRating 1 reviews : ℚ)) = (reviews.length : ℚ) := by
      exact_mod_cast hsumn
    have hT : (reviews.length : ℚ) ≠ 0 := Nat.cast_ne_zero.mpr hlen
    field_simp
    linarith [hq]

/-- Concrete input for the C2 witness: two authors, ratings 5 and 1. -/
def c2Reviews : List AppReview :=
  [{ id := 1, userId := 1, rating := 5, reviewText := none },
    { id := 2, userId := 2, rating := 1, reviewText := none }]

/-- Witness instantiating `claim_c2_stats_invariants` at `c2Reviews`. -/
theorem claim_c2_stats_invariants_witness :
    (calculateReviewStats c2Reviews).ratingCounts.sum =
        (calculateReviewStats c2Reviews).totalReviews
    ∧ (calculateReviewStats c2Reviews).totalReviews = c2Reviews.length
    ∧ (calculateReviewStats c2Reviews).ratingCounts =
        [countRating 5 c2Reviews, countRating 4 c2Reviews, countRating 3 c2Reviews,
          countRating 2 c2Reviews, countRating 1 c2Reviews]
    ∧ (calculateReviewStats c2Reviews).percentages =
        (calculateReviewStats c2Reviews).ratingCounts.map
          (fun count : ℕ =>
            (count : ℚ) / ((calculateReviewStats c2Reviews).totalReviews : ℚ) * 100)
    ∧ (calculateReviewStats c2Reviews).percentages.sum = 100 :=
  claim_c2_stats_invariants c2Reviews (by decide) (by decide)

/-- A corrupted review whose rating 6 lies outside `[1,5]`. -/
def c1BadReview : AppReview :=
  { id := 1, userId := 1, rating := 6, reviewText := none }

/-- C1 counterexample: on the single out-of-range review `c1BadReview`
the summary still counts the entry in the total (1, not 0) and in the
average (6, not 0), so out-of-range entries are not excluded from all
counts; and `ReviewStats` has no skipped-entry field at all. -/
theorem claim_c1_counterexample :
    (calculateReviewStats [c1BadReview]).totalReviews = 1
    ∧ (calculateReviewStats [c1BadReview]).averageRating = 6
    ∧ (calculateReviewStats [c1BadReview]).ratingCounts = [0, 0, 0, 0, 0] := by
  refine ⟨rfl, ?_, rfl⟩
  rw [calculateReviewStats_averageRating [c1BadReview] (by decide)]
  norm_num [c1BadReview]

/-- C1 amended: out-of-range ratings are excluded only from the
histogram (and hence from the percentage numerators); they still count
in the total, in the average's numerator and denominator, and in the
percentage denominators; and the returned record carries no count of
skipped entries (the `ReviewStats` structure has exactly the four
fields `averageRating`, `totalReviews`, `ratingCounts`,
`percentages`). -/
theorem claim_c1_amended (reviews : List AppReview) (hne : reviews ≠ []) :
    (calculateReviewStats reviews).totalReviews = reviews.length
    ∧ (calculateReviewStats reviews).averageRating =
        (((reviews.map (fun review => review.rating)).sum : ℤ) : ℚ) / (reviews.length : ℚ)
    ∧ (calculateReviewStats reviews).ratingCounts =
        [countRating 5 reviews, countRating 4 reviews, countRating 3 reviews,
          countRating 2 reviews, countRating 1 reviews]
    ∧ (calculateReviewStats reviews).ratingCounts.sum = inRangeCount reviews
    ∧ (calculateReviewStats reviews).percentages =
        (calculateReviewStats reviews).ratingCounts.map
          (fun count : ℕ => (count : ℚ) / (reviews.length : ℚ) * 100) := by
  refine ⟨calculateReviewStats_totalReviews reviews hne,
    calculateReviewStats_averageRating reviews hne, ?_, ?_, ?_⟩
  · rw [calculateReviewStats_ratingCounts reviews hne, ratingCountsOf_eq]
  · rw [calculateReviewStats_ratingCounts reviews hne, ratingCountsOf_eq]
    simp only [List.sum_cons, List.sum_nil, add_zero]
    have hs := countRating_sum reviews
    omega
  · rw [calculateReviewStats_percentages reviews hne,
      calculateReviewStats_ratingCounts reviews hne]

/-- Concrete input for the C1 witness: one out-of-range and one valid
rating. -/
def c1Reviews : List AppReview :=
  [{ id := 1, userId := 1, rating := 6, reviewText := none },
    { id := 2, userId := 2, rating := 5, reviewText := none }]

/-- Witness instantiating `claim_c1_amended` at `c1Reviews`. -/
theorem claim_c1_amended_witness :
    (calculateReviewStats c1Reviews).totalReviews = c1Reviews.length
    ∧ (calculateReviewStats c1Reviews).averageRating =
        (((c1Reviews.map (fun review => review.rating)).sum : ℤ) : ℚ) / (c1Reviews.length : ℚ)
    ∧ (calculateReviewStats c1Reviews).ratingCounts =
        [countRating 5 c1Reviews, countRating 4 c1Reviews, countRating 3 c1Reviews,
          countRating 2 c1Reviews, countRating 1 c1Reviews]
    ∧ (calculateReviewStats c1Reviews).ratingCounts.sum = inRangeCount c1Reviews
    ∧ (calculateReviewStats c1Reviews).percentages =
        (calculateReviewStats c1Reviews).ratingCounts.map
          (fun count : ℕ => (count : ℚ) / (c1Reviews.length : ℚ) * 100) :=
  claim_c1_amended c1Reviews (by decide)

/-- The OAuth application record as the marketplace components consume
it (`src/unnamed/part_000`: `AppCard`, `filteredApps`;
`src/server/oauthAppRoutes.ts`: the record handed to
`storage.createOAuthApp`). -/
structure OAuthApp where
  userId : Nat
  name : String
  description : String
  homepageUrl : String
  callbackUrl : String
  logoUrl : Option String
  deriving DecidableEq, Repr

/-- The star count the marketplace `AppCard` displays
(`src/unnamed/part_000` line 1470):
`Math.floor(Math.random() * 5) + 1`, a function of the per-request
random draw `rand` and not of the app's reviews. -/
def appCardDisplayedStars (app : OAuthApp) (rand : ℚ) : Int :=
  ⌊rand * 5⌋ + 1

lemma countRating_eq_map (k : Int) (l : List AppReview) :
    countRating k l =
      (l.map (fun review => review.rating)).countP (fun x => x == k) := by
  simp only [countRating, List.countP_map]
  rfl

/-- C8 amended, deterministic half: `calculateReviewStats` is a pure
function of the ratings column of the supplied review list — two inputs
with the same ratings (regardless of ids, authors or texts) produce
identical summaries, so repeated runs on the same records agree and no
per-request randomness enters the summary. -/
theorem claim_c8_stats_deterministic (l1 l2 : List AppReview)
    (h : l1.map (fun review => review.rating) = l2.map (fun review => review.rating)) :
    calculateReviewStats l1 = calculateReviewStats l2 := by
  have hlen : l1.length = l2.length := by
    have := congrArg List.length h
    simpa using this
  have hcr : ∀ k : Int, countRating k l1 = countRating k l2 := by
    intro k
    rw [countRating_eq_map, countRating_eq_map, h]
  by_cases hn : l1 = []
  · subst hn
    have : l2 = [] := by
      have := congrArg List.length h
      simpa using (List.length_eq_zero.mp (by simpa using this.symm))
    subst this
    rfl
  · have hn2 : l2 ≠ [] := by
      intro hz
      apply hn
      rw [← List.length_eq_zero, hlen, hz]
      rfl
    have hsum : (l1.map (fun review => review.rating)).sum =
        (l2.map (fun review => review.rating)).sum := by rw [h]
    have e1 := calculateReviewStats_averageRating l1 hn
    have e2 := calculateReviewStats_averageRating l2 hn2
    have ec1 := calculateReviewStats_ratingCounts l1 hn
    have ec2 := calculateReviewStats_ratingCounts l2 hn2
    have ep1 := calculateReviewStats_percentages l1 hn
    have ep2 := calculateReviewStats_percentages l2 hn2
    have et1 := calculateReviewStats_totalReviews l1 hn
    have et2 := calculateReviewStats_totalReviews l2 hn2
    have hco : ratingCountsOf l1 = ratingCountsOf l2 := by
      rw [ratingCountsOf_eq, ratingCountsOf_eq, hcr 5, hcr 4, hcr 3, hcr 2, hcr 1]
    cases hS1 : calculateReviewStats l1 with
    | mk a1 t1 c1 p1 =>
      cases hS2 : calculateReviewStats l2 with
      | mk a2 t2 c2 p2 =>
        rw [hS1] at e1 ec1 ep1 et1
        rw [hS2] at e2 ec2 ep2 et2
        simp only at e1 e2 ec1 ec2 ep1 ep2 et1 et2
        subst e1 e2 ec1 ec2 ep1 ep2 et1 et2
        rw [hsum, hlen, hco]

/-- A concrete marketplace listing used to exercise `AppCard`. -/
def sampleApp : OAuthApp :=
  { userId := 1
    name := "Sample App"
    description := "A sample OAuth app"
    homepageUrl := "https://example.com"
    callbackUrl := "https://example.com/callback"
    logoUrl := none }

/-- C8 counterexample: the marketplace card's displayed star rating is
per-request random, not derived from persisted review records — for the
same app (and hence the same stored reviews) two random draws `0` and
`1/2` display `1` and `3` stars. -/
theorem claim_c8_counterexample :
    appCardDisplayedStars sampleApp 0 = 1
    ∧ appCardDisplayedStars sampleApp (1 / 2) = 3
    ∧ appCardDisplayedStars sampleApp 0 ≠ appCardDisplayedStars sampleApp (1 / 2) := by
  have h1 : appCardDisplayedStars sampleApp 0 = 1 := by
    rw [appCardDisplayedStars]
    norm_num
  have h2 : appCardDisplayedStars sampleApp (1 / 2) = 3 := by
    rw [appCardDisplayedStars]
    have hf : ⌊(1 / 2 : ℚ) * 5⌋ = 2 := by
      apply Int.floor_eq_iff.mpr
      norm_num
    rw [hf]
    decide
  exact ⟨h1, h2, by rw [h1, h2]; decide⟩

/-- Two review lists with the same ratings but different authors and
ids, for the C8 witness. -/
def c8ReviewsA : List AppReview :=
  [{ id := 1, userId := 1, rating := 4, reviewText := some "good" }]

/-- Companion list to `c8ReviewsA` with identical ratings only. -/
def c8ReviewsB : List AppReview :=
  [{ id := 7, userId := 9, rating := 4, reviewText := none }]

/-- Witness instantiating `claim_c8_stats_deterministic` at two lists
agreeing only on the ratings column. -/
theorem claim_c8_stats_deterministic_witness :
    calculateReviewStats c8ReviewsA = calculateReviewStats c8ReviewsB :=
  claim_c8_stats_deterministic c8ReviewsA c8ReviewsB (by decide)

/-- JavaScript `String.prototype.trim`, modelled on character lists
(drop whitespace from both ends). -/
def jsTrim (s : String) : String :=
  String.mk (((s.toList.dropWhile Char.isWhitespace).reverse.dropWhile
    Char.isWhitespace).reverse)

/-- JavaScript `String.prototype.toLowerCase`, modelled on character
lists. -/
def jsToLower (s : String) : String :=
  String.mk (s.toList.map Char.toLower)

/-- `sub.isPrefixOf t` for some tail `t` of `s`: the JavaScript
`String.prototype.includes` substring test, on character lists. -/
def jsIncludes (s sub : String) : Bool :=
  s.toList.tails.any (fun t => sub.toList.isPrefixOf t)

/-- The marketplace search filter (`src/unnamed/part_000` lines
1319-1329): a blank (empty-after-trim) query returns `allApps`
unchanged; otherwise the query is lowercased once and apps are kept
when their lowercased name or description contains it. -/
def filteredApps (searchQuery : String) (allApps : List OAuthApp) : List OAuthApp :=
  if jsTrim searchQuery = "" then allApps
  else
    let lowerQuery := jsToLower searchQuery
    allApps.filter (fun app =>
      jsIncludes (jsToLower app.name) lowerQuery
        || jsIncludes (jsToLower app.description) lowerQuery)

/-- C10: filtering with an empty or whitespace-only query is the
identity on the loaded app list; any other query keeps exactly the apps
whose name or description contains the query case-insensitively (both
sides lowercased, matching `toLowerCase().includes(lowerQuery)`). -/
theorem claim_c10_search_filter (q : String) (apps : List OAuthApp) :
    (jsTrim q = "" → filteredApps q apps = apps)
    ∧ (jsTrim q ≠ "" → filteredApps q apps =
        apps.filter (fun app =>
          jsIncludes (jsToLower app.name) (jsToLower q)
            || jsIncludes (jsToLower app.description) (jsToLower q))) := by
  constructor <;> intro h <;> simp [filteredApps, h]

/-- A small marketplace listing for the C10 witness. -/
def c10Apps : List OAuthApp :=
  [sampleApp,
    { userId := 2
      name := "Other"
      description := "unrelated"
      homepageUrl := "https://other.example"
      callbackUrl := "https://other.example/cb"
      logoUrl := none }]

/-- Witness instantiating `claim_c10_search_filter` with a blank query
and with the query `"Sample"`. -/
theorem claim_c10_search_filter_witness :
    filteredApps "  " c10Apps = c10Apps
    ∧ filteredApps "Sample" c10Apps =
        c10Apps.filter (fun app =>
          jsIncludes (jsToLower app.name) (jsToLower "Sample")
            || jsIncludes (jsToLower app.description) (jsToLower "Sample")) :=
  ⟨(claim_c10_search_filter "  " c10Apps).1 (by decide),
    (claim_c10_search_filter "Sample" c10Apps).2 (by decide)⟩

/-- The JSON body of `POST /` in `src/server/oauthAppRoutes.ts`
(lines 35-47): each destructured field may be absent. -/
structure CreateAppBody where
  name : Option String
  description : Option String
  homepageUrl : Option String
  callbackUrl : Option String
  logoUrl : Option String
  deriving DecidableEq, Repr

/-- JavaScript truthiness of a possibly-absent string: `undefined` and
`""` are falsy, every other string is truthy. -/
def jsTruthy (v : Option String) : Bool :=
  match v with
  | none => false
  | some s => s != ""

/-- The app-creation route handler (`src/server/oauthAppRoutes.ts`
lines 32-55): reject with a 400 (`none`) when any of the four required
fields is missing or empty, otherwise hand the supplied values to
`storage.createOAuthApp` verbatim. -/
def createAppRoute (userId : Nat) (body : CreateAppBody) : Option OAuthApp :=
  if jsTruthy body.name && jsTruthy body.description
      && jsTruthy body.homepageUrl && jsTruthy body.callbackUrl then
    some
      { userId := userId
        name := body.name.getD ""
        description := body.description.getD ""
        homepageUrl := body.homepageUrl.getD ""
        callbackUrl := body.callbackUrl.getD ""
        logoUrl := body.logoUrl }
  else none

/-- Scan for the first `"://"`: accept when the scheme before it is a
nonempty run of letters and something follows the separator. -/
def absUrlScan (scheme rest : List Char) : Bool :=
  match rest with
  | ':' :: '/' :: '/' :: tail =>
      !scheme.isEmpty && scheme.all (fun c => c.isAlpha) && !tail.isEmpty
  | c :: tail => absUrlScan (scheme ++ [c]) tail
  | [] => false

/-- Stated from the specification's words ("well-formed absolute
URLs"): a letters-only nonempty scheme, the separator `"://"`, and a
nonempty remainder. -/
def isWellFormedAbsoluteUrl (s : String) : Bool :=
  absUrlScan [] s.toList

/-- Request body with every required field present but a `callbackUrl`
that is not a well-formed absolute URL. -/
def c7Body : CreateAppBody :=
  { name := some "My App"
    description := some "An app"
    homepageUrl := some "https://example.com"
    callbackUrl := some "not-a-url"
    logoUrl := none }

/-- C7 counterexample: the creation route accepts `c7Body` and stores
`"not-a-url"` as the `callbackUrl`, although that string is not a
well-formed absolute URL — the handler performs no URL validation. -/
theorem claim_c7_counterexample :
    (createAppRoute 1 c7Body).isSome = true
    ∧ (createAppRoute 1 c7Body).map (fun app => app.callbackUrl) = some "not-a-url"
    ∧ isWellFormedAbsoluteUrl "not-a-url" = false := by
  decide

/-- C7 amended: the creation route validates only presence and
nonemptiness of the four required fields; every accepted application
copies the submitted `homepageUrl` and `callbackUrl` (and the other
fields) verbatim, with no well-formedness check on either URL. -/
theorem claim_c7_amended (userId : Nat) (body : CreateAppBody) (app : OAuthApp)
    (h : createAppRoute userId body = some app) :
    jsTruthy body.name = true
    ∧ jsTruthy body.description = true
    ∧ jsTruthy body.homepageUrl = true
    ∧ jsTruthy body.callbackUrl = true
    ∧ app.userId = userId
    ∧ app.name = body.name.getD ""
    ∧ app.description = body.description.getD ""
    ∧ app.homepageUrl = body.homepageUrl.getD ""
    ∧ app.callbackUrl = body.callbackUrl.getD ""
    ∧ app.logoUrl = body.logoUrl := by
  rw [createAppRoute] at h
  by_cases hc : (jsTruthy body.name && jsTruthy body.description
      && jsTruthy body.homepageUrl && jsTruthy body.callbackUrl) = true
  · rw [if_pos hc] at h
    have happ := (Option.some.injEq _ _).mp h
    simp only [Bool.and_eq_true] at hc
    exact ⟨hc.1.1.1, hc.1.1.2, hc.1.2, hc.2, by rw [← happ], by rw [← happ],
      by rw [← happ], by rw [← happ], by rw [← happ], by rw [← happ]⟩
  · rw [if_neg hc] at h
    exact absurd h (by simp)

/-- Witness instantiating `claim_c7_amended` at `c7Body` and the app it
produces. -/
theorem claim_c7_amended_witness :
    jsTruthy c7Body.name = true
    ∧ jsTruthy c7Body.description = true
    ∧ jsTruthy c7Body.homepageUrl = true
    ∧ jsTruthy c7Body.callbackUrl = true
    ∧ ({ userId := 1, name := "My App", description := "An app",
          homepageUrl := "https://example.com", callbackUrl := "not-a-url",
          logoUrl := none } : OAuthApp).userId = 1
    ∧ ({ userId := 1, name := "My App", description := "An app",
          homepageUrl := "https://example.com", callbackUrl := "not-a-url",
          logoUrl := none } : OAuthApp).name = c7Body.name.getD ""
    ∧ ({ userId := 1, name := "My App", description := "An app",
          homepageUrl := "https://example.com", callbackUrl := "not-a-url",
          logoUrl := none } : OAuthApp).description = c7Body.description.getD ""
    ∧ ({ userId := 1, name := "My App", description := "An app",
          homepageUrl := "https://example.com", callbackUrl := "not-a-url",
          logoUrl := none } : OAuthApp).homepageUrl = c7Body.homepageUrl.getD ""
    ∧ ({ userId := 1, name := "My App", description := "An app",
          homepageUrl := "https://example.com", callbackUrl := "not-a-url",
          logoUrl := none } : OAuthApp).callbackUrl = c7Body.callbackUrl.getD ""
    ∧ ({ userId := 1, name := "My App", description := "An app",
          homepageUrl := "https://example.com", callbackUrl := "not-a-url",
          logoUrl := none } : OAuthApp).logoUrl = c7Body.logoUrl :=
  claim_c7_amended 1 c7Body _ (by decide)

/-- JavaScript `parseInt` on the leading decimal digits after optional
whitespace and sign; `none` models `NaN`. -/
def parseDigits (l : List Char) : Option Nat :=
  let ds := l.takeWhile (fun c => c.isDigit)
  if ds.isEmpty then none
  else some (ds.foldl (fun acc c => acc * 10 + (c.toNat - 48)) 0)

/-- `parseInt(s)` (radix 10): skip surrounding whitespace, consume an
optional sign and then the longest digit run; no digits gives `NaN`
(`none`). -/
def parseIntJS (s : String) : Option Int :=
  match (jsTrim s).toList with
  | '-' :: rest => (parseDigits rest).map (fun n => -(n : Int))
  | '+' :: rest => (parseDigits rest).map (fun n => (n : Int))
  | t => (parseDigits t).map (fun n => (n : Int))

/-- The limit computed by `GET /marketplace/top-rated`
(`src/server/oauthAppRoutes.ts` line 71):
`req.query.limit ? parseInt(req.query.limit) : 10`, the value then
passed to `storage.getTopRatedOAuthApps`; `none` models passing `NaN`
through. -/
def topRatedLimit (qlimit : Option String) : Option Int :=
  match qlimit with
  | none => some 10
  | some s => if s != "" then parseIntJS s else some 10

/-- C9 counterexample: with the `limit` parameter present but empty
(`?limit=`), the handler requests 10 apps instead of passing the
parameter's integer parse (`parseInt("")` is `NaN`). -/
theorem claim_c9_counterexample :
    topRatedLimit (some "") = some 10
    ∧ parseIntJS "" = none
    ∧ topRatedLimit (some "") ≠ parseIntJS "" := by
  decide

/-- C9 amended: with no `limit` parameter, or with an empty one, the
handler requests exactly 10 apps; with any nonempty `limit` it passes
the parameter's `parseInt` value to the store. -/
theorem claim_c9_top_rated_limit (s : String) (h : s ≠ "") :
    topRatedLimit (some s) = parseIntJS s
    ∧ topRatedLimit none = some 10
    ∧ topRatedLimit (some "") = some 10 := by
  refine ⟨?_, rfl, rfl⟩
  rw [topRatedLimit]
  have hb : (s != "") = true := by
    simpa using h
  rw [if_pos hb]

/-- Witness instantiating `claim_c9_top_rated_limit` at `"5"`. -/
theorem claim_c9_top_rated_limit_witness :
    topRatedLimit (some "5") = parseIntJS "5"
    ∧ topRatedLimit none = some 10
    ∧ topRatedLimit (some "") = some 10 :=
  claim_c9_top_rated_limit "5" (by decide)

/-- A review submission candidate `{userId, rating, text}`; the rating
arrives as a raw JSON number (modelled as `ℚ` so non-integer ratings
are expressible) and the text may be null/absent. -/
structure ReviewCandidate where
  userId : Nat
  rating : ℚ
  text : Option String
  deriving DecidableEq, Repr

/-- The two recoverable user-input errors of the Rating Aggregator. -/
inductive SubmissionError where
  | duplicateReview
  | invalidRating
  deriving DecidableEq, Repr

/-- The accepted record returned on success: text is a string (empty
allowed, never null). -/
structure AcceptedReview where
  userId : Nat
  rating : ℚ
  text : String
  deriving DecidableEq, Repr

/-- Whether a raw rating is an integer in `[1,5]`. -/
def isIntegerInRange (q : ℚ) : Bool :=
  q.den == 1 && decide (1 ≤ q.num) && decide (q.num ≤ 5)

/-- Modelled from the spec: the repository has no server-side review
submission route (only the client caller `submitReviewMutation` /
`handleSubmit` in `src/client/OAuthAppReviews.tsx`), so
`validateSubmission` follows §4.2: fail with `DuplicateReviewError`
when `existingReviews` already contains the candidate's `userId`, fail
with `InvalidRatingError` when the rating is not an integer in `[1,5]`,
otherwise accept the record unchanged with null/absent text normalized
to `""`. -/
def validateSubmission (existingReviews : List AppReview)
    (candidate : ReviewCandidate) : Except SubmissionError AcceptedReview :=
  if existingReviews.any (fun r => r.userId == candidate.userId) then
    .error .duplicateReview
  else if !(isIntegerInRange candidate.rating) then
    .error .invalidRating
  else
    .ok
      { userId := candidate.userId
        rating := candidate.rating
        text := candidate.text.getD "" }

/-- C3: whenever the existing review collection already holds a review
by the candidate's author, validation fails with
`DuplicateReviewError`, whatever the candidate's rating or text, so at
most one review per user per application is accepted. -/
theorem claim_c3_duplicate_rejected (existing : List AppReview)
    (candidate : ReviewCandidate)
    (h : ∃ r ∈ existing, r.userId = candidate.userId) :
    validateSubmission existing candidate =
      Except.error SubmissionError.duplicateReview := by
  have hany : existing.any (fun r => r.userId == candidate.userId) = true := by
    rcases h with ⟨r, hr, he⟩
    exact List.any_eq_true.mpr ⟨r, hr, by simpa using he⟩
  simp [validateSubmission, hany]

/-- An existing review collection with a review by user 1. -/
def c3Existing : List AppReview :=
  [{ id := 1, userId := 1, rating := 5, reviewText := some "great" }]

/-- A second submission by user 1, with a different rating and text. -/
def c3Candidate : ReviewCandidate :=
  { userId := 1, rating := 2, text := some "changed my mind" }

/-- Witness instantiating `claim_c3_duplicate_rejected` at a concrete
duplicate submission. -/
theorem claim_c3_duplicate_rejected_witness :
    (∃ r ∈ c3Existing, r.userId = c3Candidate.userId)
    ∧ validateSubmission c3Existing c3Candidate =
        Except.error SubmissionError.duplicateReview :=
  ⟨by decide, claim_c3_duplicate_rejected c3Existing c3Candidate (by decide)⟩

/-- C4: on a non-duplicate submission, a rating that is not an integer
in `[1,5]` (for example `0` or `6`) fails with `InvalidRatingError`,
and an in-range integer rating succeeds, returning the record unchanged
with null/absent text normalized to the empty string. -/
theorem claim_c4_rating_validation (existing : List AppReview)
    (candidate : ReviewCandidate)
    (hnd : ∀ r ∈ existing, r.userId ≠ candidate.userId) :
    (isIntegerInRange candidate.rating = false →
        validateSubmission existing candidate =
          Except.error SubmissionError.invalidRating)
    ∧ (isIntegerInRange candidate.rating = true →
        validateSubmission existing candidate =
          Except.ok
            { userId := candidate.userId
              rating := candidate.rating
              text := candidate.text.getD "" }) := by
  have hany : existing.any (fun r => r.userId == candidate.userId) = false := by
    rw [List.any_eq_false]
    intro r hr
    simpa using hnd r hr
  constructor <;> intro h <;> simp [validateSubmission, hany, h]

/-- Witness instantiating `claim_c4_rating_validation` on an empty
collection at ratings `0`, `6` and `3` (the last with null text). -/
theorem claim_c4_rating_validation_witness :
    validateSubmission [] { userId := 1, rating := 0, text := none } =
        Except.error SubmissionError.invalidRating
    ∧ validateSubmission [] { userId := 1, rating := 6, text := none } =
        Except.error SubmissionError.invalidRating
    ∧ validateSubmission [] { userId := 1, rating := 3, text := none } =
        Except.ok { userId := 1, rating := 3, text := "" } :=
  ⟨(claim_c4_rating_validation [] _ (by simp)).1 (by decide),
    (claim_c4_rating_validation [] _ (by simp)).1 (by decide),
    (claim_c4_rating_validation [] _ (by simp)).2 (by decide)⟩

/-- An opaque client credential pair. -/
structure CredentialPair where
  clientId : String
  clientSecret : String
  deriving DecidableEq, Repr

/-- Fatal generation failures of the Credential Issuer. -/
inductive IssueError where
  | generationError
  | exhaustedRetries
  deriving DecidableEq, Repr

/-- Modelled from the spec: the repository has no server-side
credentials route (only the client caller
`regenerateCredentialsMutation` in `src/unnamed/part_000`), so the
issuer follows §4.1: draw candidate pairs from the entropy stream,
retry while the drawn `clientId` collides with `existingClientIds`
(bounded retries, `ExhaustedRetriesError` on exhaustion), and fail with
`GenerationError` when the entropy source is unavailable. -/
def issueFrom (existingClientIds : List String) :
    Nat → List CredentialPair → Except IssueError CredentialPair
  | 0, _ => .error .exhaustedRetries
  | _ + 1, [] => .error .generationError
  | retries + 1, p :: entropy =>
      if existingClientIds.contains p.clientId then
        issueFrom existingClientIds retries entropy
      else .ok p

/-- Modelled from the spec: `issue` with the recommended bound of 5
collision retries (§4.1). -/
def issue (existingClientIds : List String) (entropy : List CredentialPair) :
    Except IssueError CredentialPair :=
  issueFrom existingClientIds 5 entropy

/-- Modelled from the spec: `regenerate` has the identical generation
contract as `issue`; the caller applies the result as a single atomic
replace (§4.1). -/
def regenerate (applicationId : Nat) (existingClientIds : List String)
    (entropy : List CredentialPair) : Except IssueError CredentialPair :=
  issue existingClientIds entropy

/-- Modelled from the spec: the store boundary holds at most one
current credential pair per application (§3, §5). -/
structure CredentialStore where
  current : Option CredentialPair
  deriving DecidableEq, Repr

/-- A pair is valid exactly when it is the store's current pair. -/
def isValidPair (store : CredentialStore) (p : CredentialPair) : Prop :=
  store.current = some p

/-- Modelled from the spec: the atomic compare-and-replace the store
boundary must expose (§5) — the new pair unconditionally becomes the
one current pair. -/
def replacePair (store : CredentialStore) (p : CredentialPair) : CredentialStore :=
  { current := some p }

lemma issueFrom_ok_not_mem (existingClientIds : List String) :
    ∀ (n : Nat) (entropy : List CredentialPair) (p : CredentialPair),
      issueFrom existingClientIds n entropy = Except.ok p →
        p.clientId ∉ existingClientIds := by
  intro n
  induction n with
  | zero => intro entropy p h; exact absurd h (by simp [issueFrom])
  | succ m ih =>
    intro entropy p h
    cases entropy with
    | nil => exact absurd h (by simp [issueFrom])
    | cons q rest =>
      rw [issueFrom] at h
      by_cases hc : existingClientIds.contains q.clientId
      · rw [if_pos hc] at h
        exact ih rest p h
      · rw [if_neg hc] at h
        have : q = p := by
          simpa using h
        subst this
        simpa using hc

/-- C5: a successful regeneration never returns the pair it replaces
(its `clientId` avoids every existing id, the old pair's included), and
under the store's atomic replace the old pair and the new pair are
never both valid: before the replace only the old pair is valid, after
it only the new one. -/
theorem claim_c5_regenerate_fresh (applicationId : Nat)
    (existingClientIds : List String) (entropy : List CredentialPair)
    (oldPair newPair : CredentialPair) (store : CredentialStore)
    (hold : oldPair.clientId ∈ existingClientIds)
    (hgen : regenerate applicationId existingClientIds entropy = Except.ok newPair)
    (hpre : isValidPair store oldPair) :
    newPair ≠ oldPair
    ∧ ¬ isValidPair store newPair
    ∧ isValidPair (replacePair store newPair) newPair
    ∧ ¬ isValidPair (replacePair store newPair) oldPair := by
  have hnm : newPair.clientId ∉ existingClientIds :=
    issueFrom_ok_not_mem existingClientIds 5 entropy newPair hgen
  have hne : newPair ≠ oldPair := by
    intro he
    rw [he] at hnm
    exact hnm hold
  refine ⟨hne, ?_, rfl, ?_⟩
  · intro hv
    rw [isValidPair, hpre] at hv
    exact hne (by simpa using hv.symm)
  · intro hv
    rw [isValidPair, replacePair] at hv
    exact hne (by simpa using hv)

/-- Existing client ids at regeneration time (the replaced pair's id is
among them). -/
def c5Ids : List String := ["client-old"]

/-- An entropy stream whose first draw collides with an existing id and
whose second is fresh. -/
def c5Entropy : List CredentialPair :=
  [{ clientId := "client-old", clientSecret := "secret-0" },
    { clientId := "client-new", clientSecret := "secret-1" }]

/-- The pair being replaced. -/
def c5Old : CredentialPair := { clientId := "client-old", clientSecret := "secret-old" }

/-- The freshly issued pair (the second entropy draw). -/
def c5New : CredentialPair := { clientId := "client-new", clientSecret := "secret-1" }

/-- The store state before regeneration: the old pair is current. -/
def c5Store : CredentialStore := { current := some c5Old }

/-- Witness instantiating `claim_c5_regenerate_fresh` at a concrete
regeneration whose first entropy draw collides. -/
theorem claim_c5_regenerate_fresh_witness :
    c5New ≠ c5Old
    ∧ ¬ isValidPair c5Store c5New
    ∧ isValidPair (replacePair c5Store c5New) c5New
    ∧ ¬ isValidPair (replacePair c5Store c5New) c5Old :=
  claim_c5_regenerate_fresh 1 c5Ids c5Entropy c5Old c5New c5Store
    (by decide) rfl rfl

end OAuthMarketplace
